import Mathlib

/-!
Verification of the ConceptViz generation/execution pipeline (src/app.py).

The development shallowly embeds the Python source: pure string processing
(`str.replace`, `str.strip`, the markdown-fence cleanup) is translated to
executable Lean functions on `List Char`; Python functions that may raise are
given the result type `PyResult`, whose `exn` constructor marks an exit by
exception carrying `str(e)`; the host interpreter's `exec` primitive is kept
abstract as a parameter `execSem : String → ExecResult`, and a small concrete
model `pythonExecMini` of `exec` on a fragment of Python (assignment lines,
a division-by-zero line, syntax errors) is used to evaluate the embedding on
concrete inputs.
-/

namespace ConceptViz

/-! ## Python string primitives -/

/-- The backtick character (code point 96). -/
def btChar : Char := Char.ofNat 96

/-- Boolean prefix test on character lists (`pat` is a prefix of `l`). -/
def pfx : List Char → List Char → Bool
  | [], _ => true
  | _ :: _, [] => false
  | a :: as, b :: bs => a == b && pfx as bs

/-- Boolean substring-occurrence test: `pat` occurs contiguously in `l`. -/
def hasSub (pat : List Char) : List Char → Bool
  | [] => pfx pat []
  | c :: rest => pfx pat (c :: rest) || hasSub pat rest

/-- Worker for Python `str.replace(old, new)`: in skip mode (`skip > 0`)
the characters still covered by the last match are consumed; in scan mode
(`skip = 0`) a match at the current position emits `new` and enters skip
mode for the rest of the matched text.  Structurally recursive on the list
so that the kernel can evaluate it. -/
def pyReplaceAux (old new : List Char) : Nat → List Char → List Char
  | _, [] => []
  | skip + 1, _ :: rest => pyReplaceAux old new skip rest
  | 0, c :: rest =>
    if pfx old (c :: rest) then
      new ++ pyReplaceAux old new (old.length - 1) rest
    else
      c :: pyReplaceAux old new 0 rest

/-- Python `str.replace(old, new)` on character lists: leftmost-first,
non-overlapping, the replacement text is not rescanned.  (Only ever used
with a non-empty `old`, as in the source.) -/
def pyReplaceList (old new : List Char) (l : List Char) : List Char :=
  pyReplaceAux old new 0 l

/-- The ASCII whitespace characters stripped by Python `str.strip()`. -/
def pyIsSpace (c : Char) : Bool :=
  c == ' ' || c == '\t' || c == '\n' || c == '\r' || c == '\x0b' || c == '\x0c'

/-- Remove trailing whitespace. -/
def dropTrailing (l : List Char) : List Char :=
  ((l.reverse).dropWhile pyIsSpace).reverse

/-- Python `str.strip()` on character lists. -/
def pyStripList (l : List Char) : List Char :=
  dropTrailing (l.dropWhile pyIsSpace)

/-- Neither the first nor the last character is whitespace. -/
def noEdgeWs (l : List Char) : Bool :=
  (match l.head? with
   | some c => !pyIsSpace c
   | none => true) &&
  (match l.getLast? with
   | some c => !pyIsSpace c
   | none => true)

/-- Three backticks, the closing markdown fence. -/
def bt3 : List Char := "```".data

/-! ## Python values and results -/

/-- Values of the modelled fragment of Python. -/
inductive PyVal where
  | int (n : Int)
  | str (s : String)
deriving DecidableEq, Repr

/-- Outcome of handing a source string to the host interpreter's `exec`:
either it completes leaving a local scope (an association list, most recent
binding first, as produced by assignment), or it raises with message
`str(e)`. -/
inductive ExecResult where
  | completed (scope : List (String × PyVal))
  | raised (msg : String)
deriving DecidableEq, Repr

/-- Result of a Python function call: a returned value, or an exit by an
uncaught exception whose `str(e)` is `msg`. -/
inductive PyResult (α : Type) where
  | ok (v : α)
  | exn (msg : String)
deriving DecidableEq, Repr

/-! ## A concrete model of the host `exec` on a small Python fragment

`exec` is a primitive of the host interpreter, not code of this repository;
the pipeline is therefore parametrised by an arbitrary semantics
`execSem : String → ExecResult`.  For concrete evaluation we model `exec`
on a fragment: newline-separated lines, each either blank, `x = <int>`,
`x = "<text>"`, or the runtime-error line `1/0`; anything else is a syntax
error, raised before anything executes (Python compiles the whole string
first). -/

inductive MiniStmt where
  | skip
  | assign (x : String) (v : PyVal)
  | divZero
deriving DecidableEq, Repr

/-- Parse the right-hand side of an assignment: an integer literal or a
double-quoted string literal without inner quotes. -/
def parseRhs (rhs : List Char) : Option PyVal :=
  if rhs ≠ [] && rhs.all Char.isDigit then
    some (.int (rhs.foldl (fun acc c => acc * 10 + ((c.toNat : Int) - 48)) 0))
  else if rhs.head? = some '"' && rhs.getLast? = some '"' && 2 ≤ rhs.length
          && ((rhs.drop 1).dropLast.all (fun c => c != '"')) then
    some (.str (String.mk ((rhs.drop 1).dropLast)))
  else
    none

/-- Parse one line of the fragment. -/
def parseStmt (line : List Char) : Option MiniStmt :=
  if line.all pyIsSpace then some .skip
  else if line = "1/0".data then some .divZero
  else
    let x := line.takeWhile Char.isAlpha
    if x = [] then none
    else
      match line.drop x.length with
      | ' ' :: '=' :: ' ' :: rhs => (parseRhs rhs).map (fun v => .assign (String.mk x) v)
      | _ => none

/-- Split a character list at newlines. -/
def splitLines : List Char → List (List Char)
  | [] => [[]]
  | '\n' :: rest => [] :: splitLines rest
  | c :: rest =>
    match splitLines rest with
    | [] => [[c]]
    | h :: t => (c :: h) :: t

/-- Run parsed statements in order, accumulating the local scope;
`1/0` raises `ZeroDivisionError`, whose `str` is `division by zero`. -/
def runStmts : List MiniStmt → List (String × PyVal) → ExecResult
  | [], scope => .completed scope
  | .skip :: rest, scope => runStmts rest scope
  | .divZero :: _, _ => .raised "division by zero"
  | .assign x v :: rest, scope => runStmts rest ((x, v) :: scope)

/-- The modelled host `exec` on the fragment. -/
def pythonExecMini (src : String) : ExecResult :=
  match (splitLines src.data).mapM parseStmt with
  | none => .raised "SyntaxError: invalid syntax"
  | some stmts => runStmts stmts []

/-! ## The model-service boundary

`model.generate_content(prompt).text` is an outbound call to the Gemini
client; the pipeline is parametrised by its behaviour
`modelCall : String → PyResult String` (the response text, or an exit by
exception with message `str(e)`). -/

/-! ## `get_explanation` (src/app.py lines 68-78) -/

/-- The f-string prompt built inside `get_explanation` (lines 71-74). -/
def explanation_prompt (concept : String) : String :=
  "\n        Explica el concepto '" ++ concept
    ++ "' de manera breve, didáctica y clara para un estudiante universitario. \n"
    ++ "        Usa un tono educativo. Máximo 200 palabras.\n        "

/-- `get_explanation(concept)`: one model call inside `try`; any exception
is caught and rendered as a formatted error message instead of propagating. -/
def get_explanation (modelCall : String → PyResult String) (concept : String) :
    PyResult String :=
  match modelCall (explanation_prompt concept) with
  | .ok text => .ok text
  | .exn e => .ok ("Error generando explicación: " ++ e)

/-! ## `get_visualization_code` (src/app.py lines 80-133) -/

/-- The f-string `base_prompt` (lines 83-112), with `concept` interpolated. -/
def base_prompt (concept : String) : String :=
  "\n    Genera un script de Python COMPLETO y EJECUTABLE para visualizar el concepto: '"
    ++ concept ++ "' usando la librería 'plotly'.\n"
    ++ "    \n"
    ++ "    Reglas ESTRICTAS:\n"
    ++ "    1. El código debe crear un objeto figura de Plotly y guardarlo en una variable llamada `fig`.\n"
    ++ "    2. NO uses `fig.show()`. La figura se renderizará externamente.\n"
    ++ "    3. Si necesitas datos, genéralos dinámicamente usando `numpy` (np) o `pandas` (pd).\n"
    ++ "    4. Usa librerías estándar o `plotly`, `pandas`, `numpy`.\n"
    ++ "    5. El código debe ser autocontenido. No asumas archivos externos.\n"
    ++ "    6. Asegúrate de manejar etiquetas, títulos y leyendas para que la gráfica sea educativa.\n"
    ++ "    7. IMPORTANTE: La app puede estar en modo CLARO u OSCURO. Por favor:\n"
    ++ "       - Usa `fig.update_layout(paper_bgcolor='rgba(0,0,0,0)', plot_bgcolor='rgba(0,0,0,0)')` para fondo transparente.\n"
    ++ "       - Configura `height=700` en update_layout para que la gráfica se vea grande y clára.\n"
    ++ "       - Asegúrate que el texto y las líneas sean legibles en ambos fondos (o usa colores vibrantes).\n"
    ++ "    8. No incluyas bloques markdown (```python ... ```). Devuelve SOLAMENTE el código puro.\n"
    ++ "    \n"
    ++ "    Ejemplo de estructura esperada:\n"
    ++ "    import plotly.graph_objects as go\n"
    ++ "    import numpy as np\n"
    ++ "    x = np.linspace(0, 10, 100)\n"
    ++ "    y = np.sin(x)\n"
    ++ "    fig = go.Figure(data=go.Scatter(x=x, y=y))\n"
    ++ "    fig.update_layout(\n"
    ++ "        title='Seno de x',\n"
    ++ "        paper_bgcolor='rgba(0,0,0,0)',\n"
    ++ "        plot_bgcolor='rgba(0,0,0,0)',\n"
    ++ "        height=700,\n"
    ++ "        margin=dict(t=50, l=50, r=50, b=50)\n"
    ++ "    )\n"
    ++ "    "

/-- The prompt selection (lines 114-124).  Python's `if error_context:`
tests truthiness, so both `None` and the empty string select the bare
`base_prompt`; a non-empty prior-error text is appended literally. -/
def build_prompt (concept : String) (error_context : Option String) : String :=
  match error_context with
  | some ec =>
    if ec = "" then base_prompt concept
    else
      "\n        " ++ base_prompt concept
        ++ "\n        \n        INTENTO ANTERIOR FALLÓ CON ESTE ERROR:\n        "
        ++ ec
        ++ "\n        \n        Por favor corrige el código para solucionar el error.\n        "
  | none => base_prompt concept

/-- The markdown-fence cleanup applied to the raw model response (line 130):
`code.replace("```python", "").replace("```", "").strip()`. -/
def clean_code (code : String) : String :=
  String.mk (pyStripList (pyReplaceList ("```".data) [] (pyReplaceList ("```python".data) [] code.data)))

/-- `get_visualization_code(concept, error_context)`: build the prompt, call
the model, clean the response (line 130); if the model call raises `e`, the
`except` branch re-raises `Exception(f"Error generando código: {e}")`
(lines 132-133). -/
def get_visualization_code (modelCall : String → PyResult String)
    (concept : String) (error_context : Option String) : PyResult String :=
  match modelCall (build_prompt concept error_context) with
  | .ok text => .ok (clean_code text)
  | .exn e => .exn ("Error generando código: " ++ e)

/-! ## `execute_and_render` (src/app.py lines 135-163) -/

/-- `execute_and_render(code_str)`: run the source under the host `exec`
against a fresh local scope; return `local_scope['fig']` if the binding
exists, otherwise raise `ValueError("El código ejecutado no generó una
variable 'fig'.")`.  The surrounding `except Exception as e: raise e`
re-raises every exception unchanged, so an exception exits the function
(`.exn`) rather than being returned as data. -/
def execute_and_render (execSem : String → ExecResult) (code_str : String) :
    PyResult PyVal :=
  match execSem code_str with
  | .completed local_scope =>
    match List.lookup "fig" local_scope with
    | some fig => .ok fig
    | none => .exn "El código ejecutado no generó una variable 'fig'."
  | .raised msg => .exn msg

/-! ## The retry loop (src/app.py lines 172-220) -/

/-- Net outcome of one iteration of the retry loop's `try` body: either the
chart object, or the `str(e)` of whatever exception the `except` branch
caught. -/
inductive StepOutcome where
  | success (fig : PyVal)
  | failure (reason : String)
deriving DecidableEq, Repr

/-- One generation/execution cycle of the loop: the attempt counter at
entry, the `last_error` passed as `error_context` into
`get_visualization_code`, and the cycle's outcome. -/
structure AttemptRecord where
  idx : Nat
  priorError : Option String
  outcome : StepOutcome
deriving DecidableEq, Repr

/-- The reason text of a failed attempt, if the attempt failed. -/
def recReason (rec : AttemptRecord) : Option String :=
  match rec.outcome with
  | .failure r => some r
  | .success _ => none

/-- The loop's observable state on exit: the `success` flag, the rendered
figure (if any), the final `last_error`, and one record per executed
generation/execution cycle, oldest first. -/
structure LoopResult where
  success : Bool
  figOut : Option PyVal
  last_error : Option String
  records : List AttemptRecord
deriving DecidableEq, Repr

/-- The loop's `try` body (lines 198-209): generate code with the current
`last_error` as `error_context`, then execute it; the `except` branch
(lines 211-216) turns any exception from either call into `str(e)`. -/
def attempt_body (modelCall : String → PyResult String)
    (execSem : String → ExecResult)
    (concept : String) (last_error : Option String) : StepOutcome :=
  match get_visualization_code modelCall concept last_error with
  | .exn e => .failure e
  | .ok code_to_run =>
    match execute_and_render execSem code_to_run with
    | .exn e => .failure e
    | .ok fig => .success fig

/-- The `while attempt < max_retries and not success` loop (lines 197-216),
written on the fuel `max_retries - attempt`: a successful cycle sets
`success` and exits without touching `last_error`; a failed cycle sets
`last_error` to the caught `str(e)` and increments `attempt`. -/
def retry_loop (modelCall : String → PyResult String)
    (execSem : String → ExecResult) (concept : String) :
    Nat → Nat → Option String → LoopResult
  | 0, _, last_error =>
    { success := false, figOut := none, last_error := last_error, records := [] }
  | fuel + 1, attempt, last_error =>
    match attempt_body modelCall execSem concept last_error with
    | .success fig =>
      { success := true, figOut := some fig, last_error := last_error,
        records := [⟨attempt, last_error, .success fig⟩] }
    | .failure r =>
      let rest := retry_loop modelCall execSem concept fuel (attempt + 1) (some r)
      { rest with records := ⟨attempt, last_error, .failure r⟩ :: rest.records }

/-- Observable result of the `Generar Visualización` button handler
(lines 172-220): one of the two guard errors, or the branch that runs the
pipeline (tab 1's explanation and tab 2's retry loop). -/
inductive HandlerResult where
  | conceptError
  | apiKeyError
  | ran (explanation : PyResult String) (viz : LoopResult)
deriving DecidableEq, Repr

/-- Whether the handler reached the branch that calls `get_explanation`
and the generation loop. -/
def HandlerResult.reachedGeneration : HandlerResult → Bool
  | .ran _ _ => true
  | _ => false

/-- The button handler (lines 172-220).  Python's `if not concept:` and
`elif not api_key:` test string truthiness, i.e. emptiness; past the two
guards the handler runs `get_explanation` and the retry loop with
`max_retries = 3`, `attempt = 0`, `last_error = None` (lines 189-192). -/
def generar_handler (modelCall : String → PyResult String)
    (execSem : String → ExecResult) (concept api_key : String) : HandlerResult :=
  if concept = "" then .conceptError
  else if api_key = "" then .apiKeyError
  else
    .ran (get_explanation modelCall concept)
      (retry_loop modelCall execSem concept 3 0 none)

/-! ## Auxiliary notions used by the statements and proofs -/

/-- Length of the leading run of backticks. -/
def btRun : List Char → Nat
  | [] => 0
  | c :: rest => if c == btChar then btRun rest + 1 else 0

/-- The feedback-propagation invariant of a record list: the first record's
`priorError` is the given value, each failed attempt's reason is the
`priorError` of the following attempt, and a successful attempt is the
last one. -/
def chainOk : Option String → List AttemptRecord → Prop
  | _, [] => True
  | le, rec :: rest =>
    rec.priorError = le ∧
    (match rec.outcome with
     | .failure r => chainOk (some r) rest
     | .success _ => rest = [])

/-! ## Lemmas on the Python string primitives -/

theorem pyReplaceAux_skip (old new : List Char) :
    ∀ (l : List Char) (k : Nat),
      pyReplaceAux old new k l = pyReplaceList old new (l.drop k) := by
  intro l
  induction l with
  | nil => intro k; cases k <;> rfl
  | cons c rest ih =>
    intro k
    cases k with
    | zero => rfl
    | succ k =>
      show pyReplaceAux old new k rest = pyReplaceList old new ((c :: rest).drop (k + 1))
      rw [List.drop_succ_cons, ih k]

theorem pyReplaceList_cons (old new : List Char) (c : Char) (rest : List Char) :
    pyReplaceList old new (c :: rest) =
      if pfx old (c :: rest) then
        new ++ pyReplaceList old new (rest.drop (old.length - 1))
      else
        c :: pyReplaceList old new rest := by
  show pyReplaceAux old new 0 (c :: rest) = _
  rw [pyReplaceAux, pyReplaceAux_skip]
  have h0 : pyReplaceAux old new 0 rest = pyReplaceList old new rest := rfl
  rw [h0]

theorem pfx_append_left (p q : List Char) :
    ∀ l, pfx (p ++ q) l = true → pfx p l = true := by
  induction p with
  | nil => intro l _; rfl
  | cons a p ih =>
    intro l h
    cases l with
    | nil => simp [pfx] at h
    | cons b l' =>
      simp only [List.cons_append, pfx, Bool.and_eq_true] at h ⊢
      exact ⟨h.1, ih l' h.2⟩

theorem pfx_append_right (p : List Char) :
    ∀ (s t : List Char), pfx p s = true → pfx p (s ++ t) = true := by
  induction p with
  | nil => intro s t _; rfl
  | cons a p ih =>
    intro s t h
    cases s with
    | nil => simp [pfx] at h
    | cons b s' =>
      simp only [List.cons_append, pfx, Bool.and_eq_true] at h ⊢
      exact ⟨h.1, ih s' t h.2⟩

theorem hasSub_cons (pat : List Char) (c : Char) (rest : List Char) :
    hasSub pat (c :: rest) = (pfx pat (c :: rest) || hasSub pat rest) := rfl

theorem hasSub_ext (p q : List Char) :
    ∀ l, hasSub p l = false → hasSub (p ++ q) l = false := by
  intro l
  induction l with
  | nil =>
    intro h
    cases hp : p with
    | nil => simp [hp, hasSub, pfx] at h
    | cons a p' =>
      cases q with
      | nil => simpa [hp] using h
      | cons b q' => simp [hp, hasSub, pfx]
  | cons c rest ih =>
    intro h
    rw [hasSub_cons, Bool.or_eq_false_iff] at h ⊢
    refine ⟨?_, ih h.2⟩
    cases hq : pfx (p ++ q) (c :: rest) with
    | false => rfl
    | true => rw [pfx_append_left p q _ hq] at h; exact absurd h.1 (by simp)

theorem hasSub_nil_pat : ∀ l : List Char, hasSub [] l = true := by
  intro l
  cases l with
  | nil => rfl
  | cons c rest => simp [hasSub, pfx]

theorem hasSub_append_left (pat : List Char) :
    ∀ (s t : List Char), hasSub pat (s ++ t) = false → hasSub pat s = false := by
  intro s t
  induction s with
  | nil =>
    intro h
    cases hp : pat with
    | nil => rw [hp, List.nil_append] at h; rw [hasSub_nil_pat] at h; exact absurd h (by simp)
    | cons a p' => simp [hp, hasSub, pfx]
  | cons c s' ih =>
    intro h
    rw [List.cons_append, hasSub_cons, Bool.or_eq_false_iff] at h
    rw [hasSub_cons, Bool.or_eq_false_iff]
    refine ⟨?_, ih h.2⟩
    cases hq : pfx pat (c :: s') with
    | false => rfl
    | true =>
      have := pfx_append_right pat (c :: s') t hq
      rw [List.cons_append] at this
      rw [this] at h
      exact absurd h.1 (by simp)

theorem hasSub_append_right (pat : List Char) :
    ∀ (u s : List Char), hasSub pat (u ++ s) = false → hasSub pat s = false := by
  intro u
  induction u with
  | nil => intro s h; simpa using h
  | cons c u' ih =>
    intro s h
    rw [List.cons_append, hasSub_cons, Bool.or_eq_false_iff] at h
    exact ih s h.2

theorem replace_of_not_hasSub (old new : List Char) :
    ∀ l, hasSub old l = false → pyReplaceList old new l = l := by
  intro l
  induction l with
  | nil => intro _; rfl
  | cons c rest ih =>
    intro h
    rw [hasSub_cons, Bool.or_eq_false_iff] at h
    rw [pyReplaceList_cons, if_neg (by simp [h.1]), ih h.2]

theorem bt3_eq : bt3 = [btChar, btChar, btChar] := by decide

theorem pfx_bb_iff (l : List Char) :
    pfx [btChar, btChar] l = true ↔ 2 ≤ btRun l := by
  cases l with
  | nil => simp [pfx, btRun]
  | cons x l1 =>
    cases l1 with
    | nil => by_cases hx : x = btChar <;> simp [pfx, btRun, hx]
    | cons y l2 =>
      by_cases hx : x = btChar
      · by_cases hy : y = btChar
        · subst hx; subst hy; simp [pfx, btRun]
        · subst hx; simp [pfx, btRun, hy, Ne.symm hy]
      · simp [pfx, btRun, hx, Ne.symm hx]

/-- Replacing every occurrence of three backticks by the empty string
shrinks the leading backtick run and leaves no occurrence of three
backticks in the output (a run of `n` backticks collapses to `n mod 3 ≤ 2`
of them, and runs stay separated). -/
theorem replace_bt3_inv :
    ∀ (n : Nat) (l : List Char), l.length ≤ n →
      btRun (pyReplaceList bt3 [] l) ≤ btRun l
      ∧ hasSub bt3 (pyReplaceList bt3 [] l) = false := by
  intro n
  induction n with
  | zero =>
    intro l hl
    have hnil : l = [] := List.length_eq_zero.mp (Nat.le_zero.mp hl)
    subst hnil
    exact ⟨Nat.le_refl _, by decide⟩
  | succ n ih =>
    intro l hl
    cases l with
    | nil => exact ⟨Nat.le_refl _, by decide⟩
    | cons c rest =>
      rw [pyReplaceList_cons]
      by_cases hm : pfx bt3 (c :: rest) = true
      · rw [if_pos hm]
        rw [bt3_eq] at hm
        cases rest with
        | nil => simp [pfx] at hm
        | cons r1 rest1 =>
          cases rest1 with
          | nil => simp [pfx] at hm
          | cons r2 t =>
            simp only [pfx, Bool.and_eq_true, beq_iff_eq] at hm
            obtain ⟨hc, hr1, hr2, -⟩ := hm
            have hdrop : (r1 :: r2 :: t).drop (bt3.length - 1) = t := rfl
            rw [hdrop]
            have hlen : t.length ≤ n := by
              simp only [List.length_cons] at hl
              omega
            have iht := ih t hlen
            subst hc hr1 hr2
            constructor
            · simp only [List.nil_append]
              have h1 := iht.1
              simp only [btRun, beq_self_eq_true, if_true]
              omega
            · simpa using iht.2
      · rw [if_neg hm]
        have hrl : rest.length ≤ n := by
          simp only [List.length_cons] at hl
          omega
        have ihr := ih rest hrl
        constructor
        · by_cases hc : c = btChar
          · have h1 := ihr.1
            simp only [btRun, hc, beq_self_eq_true, if_true]
            omega
          · simp [btRun, hc]
        · rw [hasSub_cons, Bool.or_eq_false_iff]
          refine ⟨?_, ihr.2⟩
          cases hq : pfx bt3 (c :: pyReplaceList bt3 [] rest) with
          | false => rfl
          | true =>
            exfalso
            rw [bt3_eq] at hq hm
            simp only [pfx, Bool.and_eq_true, beq_iff_eq] at hq
            obtain ⟨hc, hbb⟩ := hq
            have h2 : 2 ≤ btRun (pyReplaceList bt3 [] rest) := (pfx_bb_iff _).mp hbb
            have hmf : pfx [btChar, btChar] rest = false := by
              cases hp : pfx [btChar, btChar] rest with
              | false => rfl
              | true =>
                refine absurd ?_ hm
                simp only [pfx, Bool.and_eq_true, beq_iff_eq]
                exact ⟨hc, hp⟩
            have h1 : btRun rest ≤ 1 := by
              have hiff := pfx_bb_iff rest
              rw [hmf] at hiff
              have : ¬ 2 ≤ btRun rest := fun hh => by simpa using hiff.mpr hh
              omega
            have h3 := ihr.1
            omega

/-! ## Lemmas on `strip` -/

theorem dropWhile_head?_not (p : Char → Bool) :
    ∀ (l : List Char) (c : Char), (l.dropWhile p).head? = some c → p c = false := by
  intro l
  induction l with
  | nil => intro c h; simp [List.dropWhile] at h
  | cons a l' ih =>
    intro c h
    rw [List.dropWhile_cons] at h
    by_cases ha : p a = true
    · rw [if_pos ha] at h
      exact ih c h
    · rw [if_neg ha] at h
      simp only [List.head?_cons, Option.some.injEq] at h
      subst h
      cases hpa : p a with
      | false => rfl
      | true => exact absurd hpa ha

theorem dropTrailing_decomp (m : List Char) :
    m = dropTrailing m ++ (m.reverse.takeWhile pyIsSpace).reverse := by
  rw [dropTrailing, ← List.reverse_append, List.takeWhile_append_dropWhile,
    List.reverse_reverse]

theorem head?_append_left {s : List Char} (u : List Char) {c : Char}
    (h : s.head? = some c) : (s ++ u).head? = some c := by
  cases s with
  | nil => simp at h
  | cons d s' => simpa using h

theorem pyStrip_noEdgeWs (l : List Char) : noEdgeWs (pyStripList l) = true := by
  rw [noEdgeWs, Bool.and_eq_true]
  constructor
  · cases hh : (pyStripList l).head? with
    | none => rfl
    | some c =>
      have hmem : (l.dropWhile pyIsSpace).head? = some c := by
        have hd := dropTrailing_decomp (l.dropWhile pyIsSpace)
        rw [pyStripList] at hh
        rw [hd]
        exact head?_append_left _ hh
      have := dropWhile_head?_not pyIsSpace _ _ hmem
      simp [this]
  · cases hh : (pyStripList l).getLast? with
    | none => rfl
    | some c =>
      rw [pyStripList, dropTrailing, List.getLast?_reverse] at hh
      have := dropWhile_head?_not pyIsSpace _ _ hh
      simp [this]

theorem hasSub_dropWhile (pat : List Char) (p : Char → Bool) (l : List Char)
    (h : hasSub pat l = false) : hasSub pat (l.dropWhile p) = false := by
  have hdec : l.takeWhile p ++ l.dropWhile p = l := List.takeWhile_append_dropWhile p l
  exact hasSub_append_right pat _ _ (by rw [hdec]; exact h)

theorem hasSub_dropTrailing (pat : List Char) (m : List Char)
    (h : hasSub pat m = false) : hasSub pat (dropTrailing m) = false := by
  have hd := dropTrailing_decomp m
  exact hasSub_append_left pat _ _ (by rw [← hd]; exact h)

theorem hasSub_pyStrip (pat : List Char) (l : List Char)
    (h : hasSub pat l = false) : hasSub pat (pyStripList l) = false := by
  rw [pyStripList]
  exact hasSub_dropTrailing pat _ (hasSub_dropWhile pat _ _ h)

/-! ## Lemmas on the retry loop -/

theorem retry_loop_zero (mc : String → PyResult String)
    (ex : String → ExecResult) (concept : String) (a : Nat) (le : Option String) :
    retry_loop mc ex concept 0 a le =
      { success := false, figOut := none, last_error := le, records := [] } := rfl

theorem retry_loop_success_step (mc : String → PyResult String)
    (ex : String → ExecResult) (concept : String) {fig : PyVal}
    (N a : Nat) (le : Option String)
    (hb : attempt_body mc ex concept le = .success fig) :
    retry_loop mc ex concept (N + 1) a le =
      { success := true, figOut := some fig, last_error := le,
        records := [⟨a, le, .success fig⟩] } := by
  rw [retry_loop, hb]

theorem retry_loop_failure_step (mc : String → PyResult String)
    (ex : String → ExecResult) (concept : String) {r : String}
    (N a : Nat) (le : Option String)
    (hb : attempt_body mc ex concept le = .failure r) :
    retry_loop mc ex concept (N + 1) a le =
      { success := (retry_loop mc ex concept N (a + 1) (some r)).success,
        figOut := (retry_loop mc ex concept N (a + 1) (some r)).figOut,
        last_error := (retry_loop mc ex concept N (a + 1) (some r)).last_error,
        records :=
          ⟨a, le, .failure r⟩ :: (retry_loop mc ex concept N (a + 1) (some r)).records } := by
  rw [retry_loop, hb]

theorem retry_loop_records_length (mc : String → PyResult String)
    (ex : String → ExecResult) (concept : String) :
    ∀ (N a : Nat) (le : Option String),
      (retry_loop mc ex concept N a le).records.length ≤ N := by
  intro N
  induction N with
  | zero => intro a le; simp [retry_loop]
  | succ N ih =>
    intro a le
    cases hb : attempt_body mc ex concept le with
    | success fig => simp [retry_loop, hb]
    | failure r =>
      have := ih (a + 1) (some r)
      simp only [retry_loop, hb, List.length_cons]
      omega

theorem retry_loop_chainOk (mc : String → PyResult String)
    (ex : String → ExecResult) (concept : String) :
    ∀ (N a : Nat) (le : Option String),
      chainOk le (retry_loop mc ex concept N a le).records := by
  intro N
  induction N with
  | zero => intro a le; trivial
  | succ N ih =>
    intro a le
    cases hb : attempt_body mc ex concept le with
    | success fig => simp [retry_loop, hb, chainOk]
    | failure r =>
      rw [retry_loop_failure_step mc ex concept N a le hb]
      exact ⟨rfl, ih (a + 1) (some r)⟩

theorem chainOk_get :
    ∀ (recs : List AttemptRecord) (le : Option String), chainOk le recs →
      ∀ (k : Nat) (h1 : k + 1 < recs.length) (h2 : k < recs.length),
        (recs.get ⟨k + 1, h1⟩).priorError = recReason (recs.get ⟨k, h2⟩) := by
  intro recs
  induction recs with
  | nil => intro le _ k h1 _; simp at h1
  | cons rec rest ih =>
    obtain ⟨i, pe, oc⟩ := rec
    intro le hch k h1 h2
    cases oc with
    | success fig =>
      have hrest : rest = [] := hch.2
      subst hrest
      simp at h1
    | failure r =>
      have hrest : chainOk (some r) rest := hch.2
      cases k with
      | zero =>
        cases rest with
        | nil => simp at h1
        | cons rec2 rest2 =>
          have hpe2 : rec2.priorError = some r := hrest.1
          simpa [recReason] using hpe2
      | succ k =>
        have h1' : k + 1 < rest.length := by
          simp only [List.length_cons] at h1
          omega
        have h2' : k < rest.length := by omega
        simpa using ih (some r) hrest k h1' h2'

theorem retry_loop_head (mc : String → PyResult String)
    (ex : String → ExecResult) (concept : String)
    (N a : Nat) (le : Option String) (hN : 1 ≤ N) :
    ∃ oc, (retry_loop mc ex concept N a le).records.head? = some ⟨a, le, oc⟩ := by
  cases N with
  | zero => exact absurd hN (by omega)
  | succ N =>
    cases hb : attempt_body mc ex concept le with
    | success fig => exact ⟨.success fig, by simp [retry_loop, hb]⟩
    | failure r => exact ⟨.failure r, by simp [retry_loop, hb]⟩

theorem retry_loop_allfail (mc : String → PyResult String)
    (ex : String → ExecResult) (concept : String)
    (hfail : ∀ le, ∃ r, attempt_body mc ex concept le = .failure r) :
    ∀ (N a : Nat) (le : Option String),
      (retry_loop mc ex concept N a le).success = false
      ∧ (retry_loop mc ex concept N a le).figOut = none
      ∧ (retry_loop mc ex concept N a le).records.length = N
      ∧ ∀ rec ∈ (retry_loop mc ex concept N a le).records,
          ∃ r, rec.outcome = .failure r := by
  intro N
  induction N with
  | zero =>
    intro a le
    exact ⟨rfl, rfl, rfl, by intro rec h; simp [retry_loop] at h⟩
  | succ N ih =>
    intro a le
    obtain ⟨r, hr⟩ := hfail le
    obtain ⟨ihs, ihf, ihl, ihm⟩ := ih (a + 1) (some r)
    refine ⟨by simp [retry_loop, hr, ihs], by simp [retry_loop, hr, ihf],
      by simp [retry_loop, hr, ihl], ?_⟩
    intro rec hmem
    simp only [retry_loop, hr, List.mem_cons] at hmem
    cases hmem with
    | inl h => exact ⟨r, by simp [h]⟩
    | inr h => exact ihm rec h

theorem retry_loop_allfail_last (mc : String → PyResult String)
    (ex : String → ExecResult) (concept : String)
    (hfail : ∀ le, ∃ r, attempt_body mc ex concept le = .failure r) :
    ∀ (N a : Nat) (le : Option String), 1 ≤ N →
      (retry_loop mc ex concept N a le).last_error
        = ((retry_loop mc ex concept N a le).records.getLast?).bind recReason := by
  intro N
  induction N with
  | zero => intro a le h; exact absurd h (by omega)
  | succ N ih =>
    intro a le _
    obtain ⟨r, hr⟩ := hfail le
    cases N with
    | zero => simp [retry_loop, hr, recReason]
    | succ M =>
      have hlen :=
        (retry_loop_allfail mc ex concept hfail (M + 1) (a + 1) (some r)).2.2.1
      have hih := ih (a + 1) (some r) (by omega)
      rw [retry_loop_failure_step mc ex concept (M + 1) a le hr]
      cases hrec : (retry_loop mc ex concept (M + 1) (a + 1) (some r)).records with
      | nil => rw [hrec] at hlen; simp at hlen
      | cons b t =>
        rw [hrec] at hih
        simp only [hrec, List.getLast?_cons_cons]
        exact hih

/-! ## The claims -/

/-- Claim C1, counterexample.  The claim says `execute_and_render` catches
every exception and converts it into a returned Failure value, never
letting an exception propagate to its caller.  On the source string `x =`
(a syntax error) the function instead exits by the very exception the
execution raised (`except Exception as e: raise e` re-raises), so an
exception does cross the component boundary. -/
theorem claim_C1_counterexample :
    execute_and_render pythonExecMini "x =" = .exn "SyntaxError: invalid syntax" := rfl

/-- Claim C1, amended.  Exceptions raised while executing the generated
source are not converted inside `execute_and_render` — its `except` branch
re-raises them, so they exit the component (`.exn m` with the error's own
text); they are instead caught one level up, by the retry loop's `except`
handler, whose attempt outcome records `str(e)` as failure data, so nothing
propagates past the loop. -/
theorem claim_C1_amended_loop_catches (mc : String → PyResult String)
    (execSem : String → ExecResult) (concept code m : String) (le : Option String)
    (hg : get_visualization_code mc concept le = .ok code)
    (hx : execSem code = .raised m) :
    execute_and_render execSem code = .exn m
    ∧ attempt_body mc execSem concept le = .failure m := by
  constructor
  · simp only [execute_and_render, hx]
  · simp only [attempt_body, hg, execute_and_render, hx]

/-- Witness for C1 (amended): generation yields the runtime-error source
`1/0`; its execution raises `division by zero`, which exits
`execute_and_render` and becomes the attempt's failure reason. -/
theorem claim_C1_witness :
    execute_and_render pythonExecMini "1/0" = .exn "division by zero"
    ∧ attempt_body (fun _ => .ok "1/0") pythonExecMini "c" none
        = .failure "division by zero" :=
  claim_C1_amended_loop_catches (fun _ => .ok "1/0") pythonExecMini "c" "1/0"
    "division by zero" none rfl rfl

/-- Claim C2: if every generation/execution cycle fails, the loop ends with
`success = False` after exactly `N` recorded attempts, every record is a
failure, the `error_context` passed into attempt `k+1` equals the reason of
attempt `k`'s failure, and the final `last_error` reported on exhaustion is
the last recorded reason. -/
theorem claim_C2_exhaustion_and_feedback (mc : String → PyResult String)
    (ex : String → ExecResult) (concept : String) (N : Nat)
    (hfail : ∀ le, ∃ r, attempt_body mc ex concept le = .failure r) :
    (retry_loop mc ex concept N 0 none).success = false
    ∧ (retry_loop mc ex concept N 0 none).records.length = N
    ∧ (∀ rec ∈ (retry_loop mc ex concept N 0 none).records,
        ∃ r, rec.outcome = .failure r)
    ∧ (∀ (k : Nat) (h1 : k + 1 < (retry_loop mc ex concept N 0 none).records.length)
        (h2 : k < (retry_loop mc ex concept N 0 none).records.length),
        ((retry_loop mc ex concept N 0 none).records.get ⟨k + 1, h1⟩).priorError
          = recReason ((retry_loop mc ex concept N 0 none).records.get ⟨k, h2⟩))
    ∧ (1 ≤ N → (retry_loop mc ex concept N 0 none).last_error
        = ((retry_loop mc ex concept N 0 none).records.getLast?).bind recReason) := by
  obtain ⟨hs, -, hl, hm⟩ := retry_loop_allfail mc ex concept hfail N 0 none
  refine ⟨hs, hl, hm, ?_, ?_⟩
  · intro k h1 h2
    exact chainOk_get _ none (retry_loop_chainOk mc ex concept N 0 none) k h1 h2
  · intro hN
    exact retry_loop_allfail_last mc ex concept hfail N 0 none hN

/-- Witness for C2: a model call that always raises makes every attempt
fail; with `max_retries = 3` the loop exhausts after exactly three records
and reports the last reason. -/
theorem claim_C2_witness :
    (retry_loop (fun _ => .exn "E") pythonExecMini "c" 3 0 none).success = false
    ∧ (retry_loop (fun _ => .exn "E") pythonExecMini "c" 3 0 none).records.length = 3
    ∧ (retry_loop (fun _ => .exn "E") pythonExecMini "c" 3 0 none).last_error
        = ((retry_loop (fun _ => .exn "E") pythonExecMini "c" 3 0 none).records.getLast?).bind
            recReason := by
  have h := claim_C2_exhaustion_and_feedback (fun _ => .exn "E") pythonExecMini "c" 3
    (fun le => ⟨"Error generando código: E", rfl⟩)
  exact ⟨h.1, h.2.1, h.2.2.2.2 (by omega)⟩

/-- Claim C3: whatever the generator and executor behaviours, the retry
loop performs at most `N` generation/execution cycles (one `AttemptRecord`
per cycle, and the loop is a total function, so it never loops forever). -/
theorem claim_C3_loop_terminates (mc : String → PyResult String)
    (ex : String → ExecResult) (concept : String) (N a : Nat) (le : Option String) :
    (retry_loop mc ex concept N a le).records.length ≤ N :=
  retry_loop_records_length mc ex concept N a le

/-- Claim C4: when the model call itself raises (`GenerationError`,
re-raised by `get_visualization_code` as `Error generando código: {e}`),
the loop treats it exactly like an execution failure: the cycle's outcome
is a failure carrying that message, it occupies one attempt record, and the
next attempt receives that message as its `error_context`. -/
theorem claim_C4_generation_error_consumes_attempt (mc : String → PyResult String)
    (ex : String → ExecResult) (concept e : String) (N a : Nat) (le : Option String)
    (hN : 2 ≤ N)
    (hgen : mc (build_prompt concept le) = .exn e) :
    attempt_body mc ex concept le = .failure ("Error generando código: " ++ e)
    ∧ (retry_loop mc ex concept N a le).records.head?
        = some ⟨a, le, .failure ("Error generando código: " ++ e)⟩
    ∧ ((retry_loop mc ex concept N a le).records.drop 1).head?.map
          AttemptRecord.priorError
        = some (some ("Error generando código: " ++ e)) := by
  have hb : attempt_body mc ex concept le
      = .failure ("Error generando código: " ++ e) := by
    simp only [attempt_body, get_visualization_code, hgen]
  obtain ⟨M, rfl⟩ : ∃ M, N = M + 2 := ⟨N - 2, by omega⟩
  rw [retry_loop_failure_step mc ex concept (M + 1) a le hb]
  obtain ⟨oc, hoc⟩ := retry_loop_head mc ex concept (M + 1) (a + 1)
    (some ("Error generando código: " ++ e)) (by omega)
  refine ⟨hb, rfl, ?_⟩
  simp only [List.drop_succ_cons, List.drop_zero, hoc]
  rfl

/-- Witness for C4: a model call raising `quota` consumes the first attempt
with reason `Error generando código: quota`. -/
theorem claim_C4_witness :
    attempt_body (fun _ => .exn "quota") pythonExecMini "c" none
        = .failure ("Error generando código: " ++ "quota")
    ∧ (retry_loop (fun _ => .exn "quota") pythonExecMini "c" 2 0 none).records.head?
        = some ⟨0, none, .failure ("Error generando código: " ++ "quota")⟩ := by
  have h := claim_C4_generation_error_consumes_attempt (fun _ => .exn "quota")
    pythonExecMini "c" "quota" 2 0 none (by omega) rfl
  exact ⟨h.1, h.2.1⟩

/-- Claim C5: the cleanup strips the markdown fences — on the raw response
with a `python`-tagged opening fence and a closing fence around `X` it
returns exactly `X` — and it returns an already-clean string (no
triple-backtick occurrence, no surrounding whitespace) unchanged. -/
theorem claim_C5_fence_stripping :
    clean_code ("```python\nX\n```") = "X"
    ∧ ∀ s : String, hasSub ("```".data) s.data = false →
        pyStripList s.data = s.data → clean_code s = s := by
  constructor
  · rfl
  · intro s h1 h2
    rw [clean_code]
    have e1 : pyReplaceList ("```python".data) [] s.data = s.data :=
      replace_of_not_hasSub _ _ _ (by
        have hsplit : ("```python".data) = ("```".data) ++ ("python".data) := by decide
        rw [hsplit]
        exact hasSub_ext _ _ _ h1)
    rw [e1]
    have e2 : pyReplaceList ("```".data) [] s.data = s.data :=
      replace_of_not_hasSub _ _ _ h1
    rw [e2, h2]

/-- Witness for C5: the already-clean response `X` is returned unchanged. -/
theorem claim_C5_witness : clean_code "X" = "X" :=
  claim_C5_fence_stripping.2 "X" rfl rfl

/-- Claim C6, counterexample.  The claim says the input guard keeps every
empty or whitespace-only concept away from the generation calls, but the
guard is `if not concept:`, which only blocks the empty string: the
whitespace-only concept `" "` is truthy, so with a configured key the
handler still reaches the generation branch. -/
theorem claim_C6_counterexample :
    HandlerResult.reachedGeneration
        (generar_handler (fun _ => .exn "E") pythonExecMini " " "k") = true
    ∧ pyStripList " ".data = [] := ⟨rfl, rfl⟩

/-- Claim C6, amended.  The guard ensures only that no **empty** concept
string reaches `get_explanation`/`get_visualization_code`; whitespace-only
concepts are not blocked. -/
theorem claim_C6_amended_nonempty_guard (mc : String → PyResult String)
    (ex : String → ExecResult) (concept api_key : String)
    (h : HandlerResult.reachedGeneration (generar_handler mc ex concept api_key)
      = true) :
    (concept == "") = false := by
  by_cases hc : concept = ""
  · rw [generar_handler, if_pos hc] at h
    simp [HandlerResult.reachedGeneration] at h
  · simp [hc]

/-- Witness for C6 (amended): a non-empty concept with a configured key
reaches generation, and is indeed non-empty. -/
theorem claim_C6_witness : (("x" : String) == "") = false :=
  claim_C6_amended_nonempty_guard (fun _ => .exn "E") pythonExecMini "x" "k" rfl

/-- Claim C7: if the first generation/execution cycle succeeds, the loop
stops successfully with exactly one attempt record, made at attempt index
`0` with `error_context = None`. -/
theorem claim_C7_first_success (mc : String → PyResult String)
    (ex : String → ExecResult) (concept : String) (N : Nat) (v : PyVal)
    (hN : 1 ≤ N)
    (hsucc : attempt_body mc ex concept none = .success v) :
    retry_loop mc ex concept N 0 none =
      { success := true, figOut := some v, last_error := none,
        records := [⟨0, none, .success v⟩] } := by
  cases N with
  | zero => exact absurd hN (by omega)
  | succ N => exact retry_loop_success_step mc ex concept N 0 none hsucc

/-- Witness for C7: a model that immediately returns `fig = 1` succeeds on
the first of the three default attempts. -/
theorem claim_C7_witness :
    retry_loop (fun _ => .ok "fig = 1") pythonExecMini "Onda" 3 0 none =
      { success := true, figOut := some (.int 1), last_error := none,
        records := [⟨0, none, .success (.int 1)⟩] } :=
  claim_C7_first_success (fun _ => .ok "fig = 1") pythonExecMini "Onda" 3 (.int 1)
    (by omega) rfl

/-- Claim C8: `execute_and_render` succeeds exactly when the executed
source leaves a binding literally named `fig` in the resulting local scope,
returning whatever value is bound (no type check); absence of the binding
yields the missing-output error. -/
theorem claim_C8_fig_presence_contract (execSem : String → ExecResult)
    (code : String) (sc : List (String × PyVal)) (v : PyVal)
    (hrun : execSem code = .completed sc) :
    (List.lookup "fig" sc = some v → execute_and_render execSem code = .ok v)
    ∧ (List.lookup "fig" sc = none →
        execute_and_render execSem code
          = .exn "El código ejecutado no generó una variable 'fig'.") := by
  constructor
  · intro hl; simp only [execute_and_render, hrun, hl]
  · intro hl; simp only [execute_and_render, hrun, hl]

/-- Witness for C8: `fig = 1` (an `int`, not a chart object) still
succeeds carrying `1`; a scope without `fig`, or with only the
differently-cased `Fig`, fails with the missing-output message. -/
theorem claim_C8_witness :
    execute_and_render pythonExecMini "fig = 1" = .ok (.int 1)
    ∧ execute_and_render pythonExecMini "x = 1"
        = .exn "El código ejecutado no generó una variable 'fig'."
    ∧ execute_and_render pythonExecMini "Fig = 1"
        = .exn "El código ejecutado no generó una variable 'fig'." := by
  refine ⟨?_, ?_, ?_⟩
  · exact (claim_C8_fig_presence_contract pythonExecMini "fig = 1"
      [("fig", .int 1)] (.int 1) rfl).1 rfl
  · exact (claim_C8_fig_presence_contract pythonExecMini "x = 1"
      [("x", .int 1)] (.int 1) rfl).2 rfl
  · exact (claim_C8_fig_presence_contract pythonExecMini "Fig = 1"
      [("Fig", .int 1)] (.int 1) rfl).2 rfl

/-- Claim C9: `get_explanation` always returns (never exits by exception);
in particular, when the model call raises `e`, it returns the formatted
error text instead. -/
theorem claim_C9_explanation_never_raises (mc : String → PyResult String)
    (concept : String) :
    (∃ t, get_explanation mc concept = .ok t)
    ∧ ∀ e, mc (explanation_prompt concept) = .exn e →
        get_explanation mc concept = .ok ("Error generando explicación: " ++ e) := by
  constructor
  · cases hm : mc (explanation_prompt concept) with
    | ok t => exact ⟨t, by simp only [get_explanation, hm]⟩
    | exn e =>
      exact ⟨"Error generando explicación: " ++ e, by simp only [get_explanation, hm]⟩
  · intro e he
    simp only [get_explanation, he]

/-- Witness for C9: a failing model call degrades to the error text. -/
theorem claim_C9_witness :
    get_explanation (fun _ => .exn "network") "X"
      = .ok ("Error generando explicación: " ++ "network") :=
  (claim_C9_explanation_never_raises (fun _ => .exn "network") "X").2 "network" rfl

/-- Claim C10: the cleanup is a global substring replacement followed by a
strip: for every raw response the returned text contains no occurrence of
three backticks and has no leading or trailing whitespace; consequently a
clean, executable source that merely mentions three backticks inside a
string literal is also mutilated (`fig = "` ++ fence ++ `"` becomes
`fig = ""`), so the transformation is not the identity on all clean,
executable inputs. -/
theorem claim_C10_replace_is_global (s : String) :
    hasSub ("```".data) (clean_code s).data = false
    ∧ noEdgeWs (clean_code s).data = true
    ∧ clean_code "fig = \"```\"" = "fig = \"\""
    ∧ (clean_code "fig = \"```\"" == "fig = \"```\"") = false
    ∧ pythonExecMini "fig = \"```\"" = .completed [("fig", .str "```")] := by
  refine ⟨?_, ?_, rfl, rfl, rfl⟩
  · rw [clean_code]
    have hinv := (replace_bt3_inv
      (pyReplaceList ("```python".data) [] s.data).length
      (pyReplaceList ("```python".data) [] s.data) (Nat.le_refl _)).2
    exact hasSub_pyStrip _ _ hinv
  · rw [clean_code]
    exact pyStrip_noEdgeWs _

end ConceptViz
